import Mathlib

/-! gountries: the query engine of `query.go`

A shallow embedding of `query.go` (package `gountries`) and the properties of
its lookups.

Modelling conventions.

* A Go `string` is a Lean `String` (UTF-8 text); the builtin `len` of a string
  is its number of bytes, `String.utf8ByteSize`.
* The functions of the imported package `strings` that the file calls
  (`ToUpper`, `ToLower`, `EqualFold`) are library code, not code of this
  repository: every definition takes them as the record `Strings`, so that
  each theorem holds for whatever case mapping the library implements.
* A Go `map[string]V` is a list of key/value entries without repeated keys.
  The order of the list is the order in which one `range` loop visits the
  entries.
* A Go result pair `(value, err)` is an `Except`: `err == nil` is `.ok value`,
  and every failing `return` of the file gives the zero value next to its
  error, so `.error e` loses nothing.
-/

namespace Gountries

/-! ## Strings -/

/-- The builtin `len` on a Go string: the number of bytes. -/
def len (s : String) : Nat := s.utf8ByteSize

/-- The functions of Go's package `strings` used by `query.go`. -/
structure Strings where
  ToUpper : String → String
  ToLower : String → String
  EqualFold : String → String → Bool

/-- Upper-casing of the letters `a`..`z`, every other character unchanged. -/
def asciiUpper (s : String) : String := ⟨s.data.map Char.toUpper⟩

/-- Lower-casing of the letters `A`..`Z`, every other character unchanged. -/
def asciiLower (s : String) : String := ⟨s.data.map Char.toLower⟩

/-- The package `strings` restricted to ASCII case mapping, a concrete choice
of the three functions on which the definitions can be evaluated. -/
def asciiStrings : Strings where
  ToUpper := asciiUpper
  ToLower := asciiLower
  EqualFold := fun s t => asciiLower s == asciiLower t

/-! ## Maps -/

/-- A Go `map[string]V`: entries with pairwise distinct keys. -/
abbrev GoMap (V : Type) : Type :=
  { l : List (String × V) // (l.map Prod.fst).Nodup }

namespace GoMap

variable {V : Type}

/-- The entries, in the order of one iteration over the map. -/
def entries (m : GoMap V) : List (String × V) := m.val

/-- The empty (or nil) map. -/
def empty : GoMap V := ⟨[], List.nodup_nil⟩

/-- The two-valued index expression `v, exists := m[k]`. -/
def find? (m : GoMap V) (k : String) : Option V := m.val.lookup k

/-- The one-valued index expression `m[k]`: the zero value when `k` is absent. -/
def get (m : GoMap V) (zero : V) (k : String) : V := (m.find? k).getD zero

/-- The values in the order a `for _, v := range m` loop visits them. -/
def values (m : GoMap V) : List V := m.val.map Prod.snd

/-- The builtin `len` on a map: its number of entries. -/
def size (m : GoMap V) : Nat := m.val.length

end GoMap

/-! ## Errors -/

deriving instance DecidableEq for Except

/-- The two failure conditions of the spec's error taxonomy. -/
inductive ErrorKind where
  | NotFound
  | InvalidFormat
  deriving DecidableEq, Repr

/-- Modelled from the spec: `makeError` is called by `query.go` but defined
elsewhere in the package. The spec describes its result as a tagged error with
a human-readable template and an offending-value payload; the record keeps the
two arguments of the call. -/
structure LookupError where
  errMsg : String
  errType : String
  deriving DecidableEq, Repr

/-- Modelled from the spec: the error built from a message template and the
offending input. -/
def makeError (errMsg errType : String) : LookupError := ⟨errMsg, errType⟩

/-- Modelled from the spec: InvalidFormat is the malformed key, a wrong code
length in the alpha and currency lookups (the two `format` messages of
`query.go`); every other failure is NotFound. -/
def LookupError.kind (e : LookupError) : ErrorKind :=
  if e.errMsg = "Invalid code format" ∨ e.errMsg = "Invalid currency format" then
    ErrorKind.InvalidFormat
  else
    ErrorKind.NotFound

/-! ## Country records -/

/-- The part `Name` of a country record; `query.go` reads `Name.Common`. -/
structure CountryName where
  Common : String
  deriving DecidableEq, Repr

/-- The part `Geo` of a country record. -/
structure GeoInfo where
  Continent : String
  Region : String
  SubRegion : String
  deriving DecidableEq, Repr

/-- Subdivision metadata, the values of `nameToSubdivision`. -/
structure SubDivision where
  Name : String
  Code : String
  deriving DecidableEq, Repr

/-- The fields of `Country` that `query.go` reads, and the border codes from
which `BorderingCountries()` is resolved. The type is declared elsewhere in the
package. -/
structure Country where
  Name : CountryName
  Alpha2 : String
  Alpha3 : String
  Geo : GeoInfo
  InternationalPrefix : String
  Borders : List String
  nameToSubdivision : GoMap SubDivision
  deriving DecidableEq

/-- The zero value `Country{}`. -/
def Country.zero : Country where
  Name := ⟨""⟩
  Alpha2 := ""
  Alpha3 := ""
  Geo := ⟨"", "", ""⟩
  InternationalPrefix := ""
  Borders := []
  nameToSubdivision := GoMap.empty

/-- The struct `Query`: the primary store and the five indices. -/
structure Query where
  Countries : GoMap Country
  NameToAlpha2 : GoMap String
  Alpha3ToAlpha2 : GoMap String
  NativeNameToAlpha2 : GoMap String
  CallingCodeToAlpha2 : GoMap String
  CurrencyToAlpha2 : GoMap (List Country)

/-! ## Keyed lookups -/

/-- `Query.FindCountryByName`. -/
def FindCountryByName (S : Strings) (q : Query) (name : String) :
    Except LookupError Country :=
  let lowerName := S.ToLower name
  match q.NameToAlpha2.find? lowerName with
  | none => .error (makeError "Could not find country with name" name)
  | some alpha2 => .ok (q.Countries.get Country.zero alpha2)

/-- `Query.FindCountryByNativeName`. -/
def FindCountryByNativeName (S : Strings) (q : Query) (name : String) :
    Except LookupError Country :=
  let lowerName := S.ToLower name
  match q.NativeNameToAlpha2.find? lowerName with
  | none => .error (makeError "Could not find country with native name" name)
  | some alpha2 => .ok (q.Countries.get Country.zero alpha2)

/-- `Query.FindCountryByAlpha`. -/
def FindCountryByAlpha (S : Strings) (q : Query) (code : String) :
    Except LookupError Country :=
  let codeU := S.ToUpper code
  if len code = 2 then
    match q.Countries.find? codeU with
    | none => .error (makeError "Could not find country with code %s" code)
    | some country => .ok country
  else if len code = 3 then
    match q.Alpha3ToAlpha2.find? codeU with
    | none => .error (makeError "Could not find country with code" code)
    | some alpha2 => .ok (q.Countries.get Country.zero alpha2)
  else
    .error (makeError "Invalid code format" code)

/-- `Query.FindCountryByCallingCode`. -/
def FindCountryByCallingCode (q : Query) (callingCode : String) :
    Except LookupError Country :=
  match q.CallingCodeToAlpha2.find? callingCode with
  | none => .error (makeError "Could not find country with callingCode" callingCode)
  | some alpha2 => .ok (q.Countries.get Country.zero alpha2)

/-- `Query.FindCountriesByCurrency`. -/
def FindCountriesByCurrency (q : Query) (currency : String) :
    Except LookupError (List Country) :=
  if len currency ≠ 3 then
    .error (makeError "Invalid currency format" currency)
  else
    match q.CurrencyToAlpha2.find? currency with
    | none => .error (makeError "Could not find countries with currency name" currency)
    | some alpha2 => .ok alpha2

/-- `Query.FindAllCountries`. -/
def FindAllCountries (q : Query) : GoMap Country := q.Countries

/-! ## The structural filter -/

/-- The inner loop of the border check, `for _, c2 := range
country.BorderingCountries()`, started with the current value of `match`:
`match = c1.Alpha2 == c2.Alpha2`, leaving the loop as soon as it is true. -/
def borderMatchLoop (c1 : Country) : List Country → Bool → Bool
  | [], m => m
  | c2 :: rest, _ =>
    let m := decide (c1.Alpha2 = c2.Alpha2)
    if m then m else borderMatchLoop c1 rest m

/-- The outer loop of the border check, `for _, c1 := range
c.BorderingCountries()`, started with the current value of `allMatch`: a
matched template border sets `allMatch = true`, an unmatched one sets it to
`false` and leaves the loop. -/
def borderAllMatchLoop (candidate : List Country) : List Country → Bool → Bool
  | [], allMatch => allMatch
  | c1 :: rest, _ =>
    let m := borderMatchLoop c1 candidate false
    if m then borderAllMatchLoop candidate rest true else false

/-- One turn of the loop `for _, country := range q.Countries` of
`FindCountries`: every `continue` leaves the accumulated `countries`
unchanged, the last statement appends `country`. The method
`BorderingCountries` is declared elsewhere in the package and is taken as a
parameter. -/
def FindCountries.body (S : Strings) (BorderingCountries : Country → List Country)
    (c : Country) (countries : List Country) (country : Country) : List Country :=
  if c.Name.Common ≠ "" ∧ S.EqualFold c.Name.Common country.Name.Common = true then
    countries
  else if c.Alpha2 ≠ "" ∧ c.Alpha2 ≠ country.Alpha2 then
    countries
  else if c.Alpha3 ≠ "" ∧ c.Alpha3 ≠ country.Alpha3 then
    countries
  else if c.Geo.Continent ≠ "" ∧
      ¬ S.EqualFold c.Geo.Continent country.Geo.Continent = true then
    countries
  else if c.Geo.Region ≠ "" ∧ ¬ S.EqualFold c.Geo.Region country.Geo.Region = true then
    countries
  else if c.Geo.SubRegion ≠ "" ∧
      ¬ S.EqualFold c.Geo.SubRegion country.Geo.SubRegion = true then
    countries
  else if Country.InternationalPrefix c ≠ "" ∧
      ¬ S.EqualFold (Country.InternationalPrefix c)
        (Country.InternationalPrefix country) = true then
    countries
  else
    let allMatch := false
    if (BorderingCountries c).length > 0 then
      let allMatch :=
        borderAllMatchLoop (BorderingCountries country) (BorderingCountries c) allMatch
      if ¬ allMatch = true then
        countries
      else
        countries ++ [country]
    else
      countries ++ [country]

/-- `Query.FindCountries`: the loop over the primary store, starting from the
nil slice. -/
def FindCountries (S : Strings) (BorderingCountries : Country → List Country)
    (q : Query) (c : Country) : List Country :=
  q.Countries.values.foldl (FindCountries.body S BorderingCountries c) []

/-- The loop of `FindSubdivisionCountryByName` over the remaining countries of
the scan. -/
def FindSubdivisionCountryByName.loop (S : Strings) (subdivisionName : String) :
    List Country → Except LookupError Country
  | [] => .error (makeError "Invalid subdivision name" subdivisionName)
  | country :: rest =>
    match country.nameToSubdivision.find? (S.ToLower subdivisionName) with
    | some _ => .ok country
    | none => FindSubdivisionCountryByName.loop S subdivisionName rest

/-- `Query.FindSubdivisionCountryByName`. -/
def FindSubdivisionCountryByName (S : Strings) (q : Query) (subdivisionName : String) :
    Except LookupError Country :=
  FindSubdivisionCountryByName.loop S subdivisionName q.Countries.values

/-! ## Outcomes -/

/-- The kind of failure of a lookup result, `none` for a success. -/
def failKind? {α : Type} : Except LookupError α → Option ErrorKind
  | .error e => some e.kind
  | .ok _ => none

/-- The number of characters (Unicode code points) of a string, as opposed to
its number of bytes `len`. -/
def charCount (s : String) : Nat := s.length

/-! ## The filter as a predicate

`Matches` collects the guards of the loop body of `FindCountries`: the country
is appended exactly when no `continue` is taken. -/

/-- No `continue` of the loop body of `FindCountries` is taken for `country`. -/
def Matches (S : Strings) (BorderingCountries : Country → List Country)
    (c country : Country) : Prop :=
  ¬ (c.Name.Common ≠ "" ∧ S.EqualFold c.Name.Common country.Name.Common = true) ∧
  ¬ (c.Alpha2 ≠ "" ∧ c.Alpha2 ≠ country.Alpha2) ∧
  ¬ (c.Alpha3 ≠ "" ∧ c.Alpha3 ≠ country.Alpha3) ∧
  ¬ (c.Geo.Continent ≠ "" ∧ ¬ S.EqualFold c.Geo.Continent country.Geo.Continent = true) ∧
  ¬ (c.Geo.Region ≠ "" ∧ ¬ S.EqualFold c.Geo.Region country.Geo.Region = true) ∧
  ¬ (c.Geo.SubRegion ≠ "" ∧ ¬ S.EqualFold c.Geo.SubRegion country.Geo.SubRegion = true) ∧
  ¬ (Country.InternationalPrefix c ≠ "" ∧
      ¬ S.EqualFold (Country.InternationalPrefix c)
        (Country.InternationalPrefix country) = true) ∧
  ((BorderingCountries c).length > 0 →
    borderAllMatchLoop (BorderingCountries country) (BorderingCountries c) false = true)

instance (S : Strings) (BorderingCountries : Country → List Country) (c country : Country) :
    Decidable (Matches S BorderingCountries c country) := by
  unfold Matches; infer_instance

/-- Every border of the template is among the borders of the candidate,
compared by exact alpha2 code. -/
def BordersIncluded (template candidate : List Country) : Prop :=
  ∀ c1 ∈ template, ∃ c2 ∈ candidate, c1.Alpha2 = c2.Alpha2

instance (template candidate : List Country) :
    Decidable (BordersIncluded template candidate) := by
  unfold BordersIncluded; infer_instance

/-- Every scalar field that `FindCountries` compares is at its zero value in
the template: common name, alpha2, alpha3, continent, region, subregion and
international prefix. -/
def ScalarsEmpty (c : Country) : Prop :=
  c.Name.Common = "" ∧ c.Alpha2 = "" ∧ c.Alpha3 = "" ∧ c.Geo.Continent = "" ∧
  c.Geo.Region = "" ∧ c.Geo.SubRegion = "" ∧ Country.InternationalPrefix c = ""

instance (c : Country) : Decidable (ScalarsEmpty c) := by
  unfold ScalarsEmpty; infer_instance

/-- The template whose only populated field is `Alpha2`. -/
def alpha2Template (a : String) : Country := { Country.zero with Alpha2 := a }

/-- The template whose only populated field is the list of border codes. -/
def bordersTemplate (codes : List String) : Country :=
  { Country.zero with Borders := codes }

/-! ## A small engine for concrete evaluation -/

/-- France. -/
def sampleFR : Country where
  Name := ⟨"France"⟩
  Alpha2 := "FR"
  Alpha3 := "FRA"
  Geo := ⟨"Europe", "Europe", "Western Europe"⟩
  InternationalPrefix := "00"
  Borders := ["DE", "ES"]
  nameToSubdivision := ⟨[("bretagne", ⟨"Bretagne", "E"⟩)], by decide⟩

/-- Germany. -/
def sampleDE : Country where
  Name := ⟨"Germany"⟩
  Alpha2 := "DE"
  Alpha3 := "DEU"
  Geo := ⟨"Europe", "Europe", "Western Europe"⟩
  InternationalPrefix := "00"
  Borders := ["FR"]
  nameToSubdivision := ⟨[("bayern", ⟨"Bayern", "BY"⟩)], by decide⟩

/-- Spain. -/
def sampleES : Country where
  Name := ⟨"Spain"⟩
  Alpha2 := "ES"
  Alpha3 := "ESP"
  Geo := ⟨"Europe", "Europe", "Southern Europe"⟩
  InternationalPrefix := "00"
  Borders := ["FR"]
  nameToSubdivision := GoMap.empty

/-- An engine over France, Germany and Spain with consistent indices. -/
def sampleQuery : Query where
  Countries := ⟨[("FR", sampleFR), ("DE", sampleDE), ("ES", sampleES)], by decide⟩
  NameToAlpha2 := ⟨[("france", "FR"), ("germany", "DE"), ("spain", "ES")], by decide⟩
  Alpha3ToAlpha2 := ⟨[("FRA", "FR"), ("DEU", "DE"), ("ESP", "ES")], by decide⟩
  NativeNameToAlpha2 :=
    ⟨[("france", "FR"), ("deutschland", "DE"), ("españa", "ES")], by decide⟩
  CallingCodeToAlpha2 := ⟨[("33", "FR"), ("49", "DE"), ("34", "ES")], by decide⟩
  CurrencyToAlpha2 := ⟨[("EUR", [sampleFR, sampleDE, sampleES])], by decide⟩

/-- Border resolution for the sample engine: each border code is looked up in
the primary store, codes that are not found are dropped. -/
def sampleBordering (c : Country) : List Country :=
  c.Borders.filterMap sampleQuery.Countries.find?

/-- An engine whose alpha3 index has a dangling entry: `DEU` names the code
`DE`, which is not a key of the primary store. -/
def danglingQuery : Query where
  Countries := ⟨[("FR", sampleFR)], by decide⟩
  NameToAlpha2 := ⟨[("france", "FR")], by decide⟩
  Alpha3ToAlpha2 := ⟨[("FRA", "FR"), ("DEU", "DE")], by decide⟩
  NativeNameToAlpha2 := ⟨[("france", "FR")], by decide⟩
  CallingCodeToAlpha2 := ⟨[("33", "FR")], by decide⟩
  CurrencyToAlpha2 := ⟨[("EUR", [sampleFR])], by decide⟩

/-! ## Further templates and relations between templates -/

/-- The template whose only populated field is the common name. -/
def nameTemplate (n : String) : Country := { Country.zero with Name := ⟨n⟩ }

/-- The template whose only populated fields are those of `Geo`. -/
def geoTemplate (continent region subRegion : String) : Country :=
  { Country.zero with Geo := ⟨continent, region, subRegion⟩ }

/-- The candidate equals the template, under `EqualFold`, on each of
continent, region and subregion that is not empty in the template. -/
def GeoAgrees (S : Strings) (c country : Country) : Prop :=
  (c.Geo.Continent = "" ∨ S.EqualFold c.Geo.Continent country.Geo.Continent = true) ∧
  (c.Geo.Region = "" ∨ S.EqualFold c.Geo.Region country.Geo.Region = true) ∧
  (c.Geo.SubRegion = "" ∨ S.EqualFold c.Geo.SubRegion country.Geo.SubRegion = true)

instance (S : Strings) (c country : Country) : Decidable (GeoAgrees S c country) := by
  unfold GeoAgrees; infer_instance

/-- The template `t2` populates at least what `t1` populates: it agrees with
`t1` on every scalar field that is not empty in `t1`, and its bordering
countries include those of `t1`. -/
def TemplateExtends (BorderingCountries : Country → List Country) (t1 t2 : Country) :
    Prop :=
  (t1.Name.Common ≠ "" → t2.Name.Common = t1.Name.Common) ∧
  (t1.Alpha2 ≠ "" → t2.Alpha2 = t1.Alpha2) ∧
  (t1.Alpha3 ≠ "" → t2.Alpha3 = t1.Alpha3) ∧
  (t1.Geo.Continent ≠ "" → t2.Geo.Continent = t1.Geo.Continent) ∧
  (t1.Geo.Region ≠ "" → t2.Geo.Region = t1.Geo.Region) ∧
  (t1.Geo.SubRegion ≠ "" → t2.Geo.SubRegion = t1.Geo.SubRegion) ∧
  (Country.InternationalPrefix t1 ≠ "" →
    Country.InternationalPrefix t2 = Country.InternationalPrefix t1) ∧
  (∀ c1 ∈ BorderingCountries t1, c1 ∈ BorderingCountries t2)

instance (BorderingCountries : Country → List Country) (t1 t2 : Country) :
    Decidable (TemplateExtends BorderingCountries t1 t2) := by
  unfold TemplateExtends; infer_instance

/-! ## Subdivisions and enumerations of the store -/

/-- The test of the loop of `FindSubdivisionCountryByName`: the country's
subdivision-name index has the lower-cased name as a key. -/
def HasSubdivision (S : Strings) (subdivisionName : String) (country : Country) : Bool :=
  (country.nameToSubdivision.find? (S.ToLower subdivisionName)).isSome

/-- Two states of one engine that differ at most in the order in which the
primary store is enumerated: the same entries in the store, the same indices. -/
def SameStore (q1 q2 : Query) : Prop :=
  q1.Countries.entries.Perm q2.Countries.entries ∧
  q1.NameToAlpha2 = q2.NameToAlpha2 ∧
  q1.Alpha3ToAlpha2 = q2.Alpha3ToAlpha2 ∧
  q1.NativeNameToAlpha2 = q2.NativeNameToAlpha2 ∧
  q1.CallingCodeToAlpha2 = q2.CallingCodeToAlpha2 ∧
  q1.CurrencyToAlpha2 = q2.CurrencyToAlpha2

instance (q1 q2 : Query) : Decidable (SameStore q1 q2) := by
  unfold SameStore; infer_instance

/-- The Netherlands, with a province Limburg. -/
def sampleNL : Country where
  Name := ⟨"Netherlands"⟩
  Alpha2 := "NL"
  Alpha3 := "NLD"
  Geo := ⟨"Europe", "Europe", "Western Europe"⟩
  InternationalPrefix := "00"
  Borders := ["BE"]
  nameToSubdivision := ⟨[("limburg", ⟨"Limburg", "LI"⟩)], by decide⟩

/-- Belgium, with a province Limburg. -/
def sampleBE : Country where
  Name := ⟨"Belgium"⟩
  Alpha2 := "BE"
  Alpha3 := "BEL"
  Geo := ⟨"Europe", "Europe", "Western Europe"⟩
  InternationalPrefix := "00"
  Borders := ["NL"]
  nameToSubdivision := ⟨[("limburg", ⟨"Limburg", "VLI"⟩)], by decide⟩

/-- An engine over the Netherlands and Belgium, enumerated in this order. -/
def limburgQuery : Query where
  Countries := ⟨[("NL", sampleNL), ("BE", sampleBE)], by decide⟩
  NameToAlpha2 := ⟨[("netherlands", "NL"), ("belgium", "BE")], by decide⟩
  Alpha3ToAlpha2 := ⟨[("NLD", "NL"), ("BEL", "BE")], by decide⟩
  NativeNameToAlpha2 := ⟨[("nederland", "NL"), ("belgië", "BE")], by decide⟩
  CallingCodeToAlpha2 := ⟨[("31", "NL"), ("32", "BE")], by decide⟩
  CurrencyToAlpha2 := ⟨[("EUR", [sampleNL, sampleBE])], by decide⟩

/-- The engine `limburgQuery` with the primary store enumerated in the other
order. -/
def limburgQuerySwapped : Query :=
  { limburgQuery with Countries := ⟨[("BE", sampleBE), ("NL", sampleNL)], by decide⟩ }

/-- Border resolution that finds no bordering country for any record. -/
def noBordering (_ : Country) : List Country := []

/-- The sample engine with one more entry in the currency index, under the
three-character key `a€b`, which takes 5 bytes. -/
def threeCharCurrencyQuery : Query :=
  { sampleQuery with
    CurrencyToAlpha2 :=
      ⟨[("EUR", [sampleFR, sampleDE, sampleES]), ("a€b", [sampleFR])], by decide⟩ }

end Gountries

namespace Gountries

/-! ## Maps: lookup of a stored entry -/

theorem lookup_of_mem_nodup {V : Type} (k : String) (v : V) :
    ∀ l : List (String × V), (l.map Prod.fst).Nodup → (k, v) ∈ l → l.lookup k = some v
  | [], _, h => by simp at h
  | (k', v') :: rest, hnd, h => by
    rw [List.map_cons, List.nodup_cons] at hnd
    rcases List.mem_cons.mp h with heq | hmem
    · cases heq
      simp [List.lookup]
    · have hne : k ≠ k' := by
        rintro rfl
        exact hnd.1 (List.mem_map.mpr ⟨(k, v), hmem, rfl⟩)
      have hbeq : (k == k') = false := by simpa using hne
      rw [List.lookup, hbeq]
      exact lookup_of_mem_nodup k v rest hnd.2 hmem

theorem GoMap.find?_of_mem {V : Type} (m : GoMap V) (k : String) (v : V)
    (h : (k, v) ∈ m.entries) : m.find? k = some v :=
  lookup_of_mem_nodup k v m.val m.property h

theorem mem_of_lookup {V : Type} (k : String) (v : V) :
    ∀ l : List (String × V), l.lookup k = some v → (k, v) ∈ l
  | [], h => by simp at h
  | (k', v') :: rest, h => by
    by_cases hk : k = k'
    · subst hk
      simp [List.lookup] at h
      simp [h]
    · have hbeq : (k == k') = false := by simpa using hk
      rw [List.lookup, hbeq] at h
      exact List.mem_cons_of_mem _ (mem_of_lookup k v rest h)

theorem GoMap.mem_of_find? {V : Type} (m : GoMap V) (k : String) (v : V)
    (h : m.find? k = some v) : (k, v) ∈ m.entries :=
  mem_of_lookup k v m.val h

/-! ## FindCountryByAlpha -/

/-- C1. Alpha-2 round trip: for every engine and every entry `(k, C)` of the
primary store, every input `s` with `len s = 2` whose upper-casing is `k` is
resolved by `FindCountryByAlpha` to exactly `C`, without error. -/
theorem FindCountryByAlpha_alpha2_roundtrip (S : Strings) (q : Query)
    (k : String) (C : Country) (s : String)
    (hmem : (k, C) ∈ q.Countries.entries) (hlen : len s = 2) (hup : S.ToUpper s = k) :
    FindCountryByAlpha S q s = .ok C := by
  have hfind : q.Countries.find? (S.ToUpper s) = some C := by
    rw [hup]; exact GoMap.find?_of_mem _ k C hmem
  simp [FindCountryByAlpha, hlen, hfind]

/-- Witness of C1: the lower-case input `fr` finds the entry stored under `FR`. -/
theorem FindCountryByAlpha_alpha2_roundtrip_witness :
    FindCountryByAlpha asciiStrings sampleQuery "fr" = .ok sampleFR :=
  FindCountryByAlpha_alpha2_roundtrip asciiStrings sampleQuery "FR" sampleFR "fr"
    (by decide) (by decide) (by decide)

/-- C2. Alpha-3 round trip: in an engine whose alpha3 index maps the
upper-cased 3-letter code of every stored country to that country's store key,
every input `s` with `len s = 3` whose upper-casing is the alpha3 code of a
stored country `C` is resolved by `FindCountryByAlpha` to exactly `C`, without
error. Upper-casing is a library function: the proof uses that it leaves the
already upper-cased `s` unchanged. -/
theorem FindCountryByAlpha_alpha3_roundtrip (S : Strings) (q : Query)
    (k : String) (C : Country) (s : String)
    (hmem : (k, C) ∈ q.Countries.entries)
    (hidx : ∀ e ∈ q.Countries.entries,
      q.Alpha3ToAlpha2.find? (S.ToUpper e.2.Alpha3) = some e.1)
    (hlen : len s = 3) (hup : S.ToUpper s = C.Alpha3)
    (hidem : S.ToUpper (S.ToUpper s) = S.ToUpper s) :
    FindCountryByAlpha S q s = .ok C := by
  have hkey : q.Alpha3ToAlpha2.find? (S.ToUpper s) = some k := by
    have h := hidx (k, C) hmem
    rw [← hup, hidem] at h
    exact h
  have hfind : q.Countries.find? k = some C := GoMap.find?_of_mem _ k C hmem
  have h2 : ¬ len s = 2 := by omega
  simp [FindCountryByAlpha, hlen, hkey, GoMap.get, hfind]

/-- Witness of C2: the mixed-case input `fRa` finds France through the alpha3
index of the sample engine. -/
theorem FindCountryByAlpha_alpha3_roundtrip_witness :
    FindCountryByAlpha asciiStrings sampleQuery "fRa" = .ok sampleFR :=
  FindCountryByAlpha_alpha3_roundtrip asciiStrings sampleQuery "FR" sampleFR "fRa"
    (by decide) (by decide) (by decide) (by decide) (by decide)

/-- C3. `FindCountryByAlpha` fails with InvalidFormat exactly when `len` of the
input is neither 2 nor 3, whatever the store and the indices hold; the failure
is then the error built from `Invalid code format` and the input itself, as
for the inputs `""` and `ABCD`. -/
theorem FindCountryByAlpha_invalidFormat_iff (S : Strings) (q : Query) (code : String) :
    (failKind? (FindCountryByAlpha S q code) = some ErrorKind.InvalidFormat ↔
      ¬ (len code = 2 ∨ len code = 3)) ∧
    (¬ (len code = 2 ∨ len code = 3) →
      FindCountryByAlpha S q code = .error (makeError "Invalid code format" code)) ∧
    FindCountryByAlpha S q "" = .error (makeError "Invalid code format" "") ∧
    FindCountryByAlpha S q "ABCD" = .error (makeError "Invalid code format" "ABCD") := by
  refine ⟨?_, ?_, ?_, ?_⟩
  · unfold FindCountryByAlpha
    by_cases h2 : len code = 2
    · simp only [h2, if_true]
      cases q.Countries.find? (S.ToUpper code) <;>
        simp [failKind?, LookupError.kind, makeError]
    · by_cases h3 : len code = 3
      · simp only [h3, if_true]
        cases q.Alpha3ToAlpha2.find? (S.ToUpper code) <;>
          simp [failKind?, LookupError.kind, makeError]
      · simp [h2, h3, failKind?, LookupError.kind, makeError]
  · intro h
    have h2 : ¬ len code = 2 := fun e => h (Or.inl e)
    have h3 : ¬ len code = 3 := fun e => h (Or.inr e)
    simp [FindCountryByAlpha, h2, h3]
  · have h2 : ¬ len "" = 2 := by decide
    have h3 : ¬ len "" = 3 := by decide
    simp [FindCountryByAlpha, h2, h3]
  · have h2 : ¬ len "ABCD" = 2 := by decide
    have h3 : ¬ len "ABCD" = 3 := by decide
    simp [FindCountryByAlpha, h2, h3]

/-- Witness of C3: the five-byte input `ABCDE` fails with InvalidFormat, the
three-byte input `xyz` does not. -/
theorem FindCountryByAlpha_invalidFormat_iff_witness :
    FindCountryByAlpha asciiStrings sampleQuery "ABCDE" =
      .error (makeError "Invalid code format" "ABCDE") ∧
    failKind? (FindCountryByAlpha asciiStrings sampleQuery "xyz") ≠
      some ErrorKind.InvalidFormat :=
  ⟨(FindCountryByAlpha_invalidFormat_iff asciiStrings sampleQuery "ABCDE").2.1 (by decide),
   fun h => ((FindCountryByAlpha_invalidFormat_iff asciiStrings sampleQuery "xyz").1.mp h)
     (Or.inr (by decide))⟩

/-- C4, as stated, fails: in an engine whose alpha3 index maps `DEU` to `DE`
while `DE` is not a key of the primary store, the input `deu` (of length 3)
gives a successful result, the zero-value country record, not a NotFound
failure. -/
theorem FindCountryByAlpha_dangling_counterexample :
    len "deu" = 3 ∧
    danglingQuery.Alpha3ToAlpha2.find? (asciiStrings.ToUpper "deu") = some "DE" ∧
    danglingQuery.Countries.find? "DE" = none ∧
    FindCountryByAlpha asciiStrings danglingQuery "deu" = .ok Country.zero ∧
    failKind? (FindCountryByAlpha asciiStrings danglingQuery "deu") ≠
      some ErrorKind.NotFound := by
  decide

/-- C4, amended. `FindCountryByAlpha` fails with NotFound, carrying the input,
for every input of length 2 whose upper-casing is not a key of the primary
store and for every input of length 3 whose upper-casing is not a key of the
alpha3 index. For an input of length 3 whose upper-casing the alpha3 index
maps to a code that is not a key of the primary store, the result is a
success holding the zero-value country record. -/
theorem FindCountryByAlpha_notFound (S : Strings) (q : Query) (code : String) :
    (len code = 2 → q.Countries.find? (S.ToUpper code) = none →
      FindCountryByAlpha S q code =
        .error (makeError "Could not find country with code %s" code) ∧
      failKind? (FindCountryByAlpha S q code) = some ErrorKind.NotFound) ∧
    (len code = 3 → q.Alpha3ToAlpha2.find? (S.ToUpper code) = none →
      FindCountryByAlpha S q code =
        .error (makeError "Could not find country with code" code) ∧
      failKind? (FindCountryByAlpha S q code) = some ErrorKind.NotFound) ∧
    (∀ alpha2, len code = 3 → q.Alpha3ToAlpha2.find? (S.ToUpper code) = some alpha2 →
      q.Countries.find? alpha2 = none →
      FindCountryByAlpha S q code = .ok Country.zero) := by
  refine ⟨?_, ?_, ?_⟩
  · intro hlen hnone
    simp [FindCountryByAlpha, hlen, hnone, failKind?, LookupError.kind, makeError]
  · intro hlen hnone
    have h2 : ¬ len code = 2 := by omega
    simp [FindCountryByAlpha, hlen, hnone, failKind?, LookupError.kind, makeError]
  · intro alpha2 hlen hsome hnone
    have h2 : ¬ len code = 2 := by omega
    simp [FindCountryByAlpha, hlen, hsome, hnone, GoMap.get]

/-- Witness of the amended C4 on the sample engines: `xx` and `xxx` are not
found, and the dangling `deu` gives the zero-value record. -/
theorem FindCountryByAlpha_notFound_witness :
    failKind? (FindCountryByAlpha asciiStrings sampleQuery "xx") =
      some ErrorKind.NotFound ∧
    failKind? (FindCountryByAlpha asciiStrings danglingQuery "xxx") =
      some ErrorKind.NotFound ∧
    FindCountryByAlpha asciiStrings danglingQuery "deu" = .ok Country.zero :=
  ⟨((FindCountryByAlpha_notFound asciiStrings sampleQuery "xx").1
      (by decide) (by decide)).2,
   ((FindCountryByAlpha_notFound asciiStrings danglingQuery "xxx").2.1
      (by decide) (by decide)).2,
   (FindCountryByAlpha_notFound asciiStrings danglingQuery "deu").2.2 "DE"
      (by decide) (by decide) (by decide)⟩

/-! ## FindCountryByName -/

/-- C5. `FindCountryByName` is case-insensitive: two inputs with the same
lower-casing either both fail with NotFound or both succeed with the same
country record. -/
theorem FindCountryByName_case_insensitive (S : Strings) (q : Query) (s t : String)
    (h : S.ToLower s = S.ToLower t) :
    (failKind? (FindCountryByName S q s) = some ErrorKind.NotFound ∧
      failKind? (FindCountryByName S q t) = some ErrorKind.NotFound) ∨
    (∃ C, FindCountryByName S q s = .ok C ∧ FindCountryByName S q t = .ok C) := by
  unfold FindCountryByName
  simp only [h]
  cases q.NameToAlpha2.find? (S.ToLower t) with
  | none => left; simp [failKind?, LookupError.kind, makeError]
  | some alpha2 => right; exact ⟨_, rfl, rfl⟩

/-- Witness of C5: `FRANCE` and `france` have the same lower-casing and both
find France. -/
theorem FindCountryByName_case_insensitive_witness :
    asciiStrings.ToLower "FRANCE" = asciiStrings.ToLower "france" ∧
    FindCountryByName asciiStrings sampleQuery "FRANCE" = .ok sampleFR ∧
    FindCountryByName asciiStrings sampleQuery "france" = .ok sampleFR ∧
    ((failKind? (FindCountryByName asciiStrings sampleQuery "FRANCE") =
        some ErrorKind.NotFound ∧
      failKind? (FindCountryByName asciiStrings sampleQuery "france") =
        some ErrorKind.NotFound) ∨
    (∃ C, FindCountryByName asciiStrings sampleQuery "FRANCE" = .ok C ∧
      FindCountryByName asciiStrings sampleQuery "france" = .ok C)) :=
  ⟨by decide, by decide, by decide,
    FindCountryByName_case_insensitive asciiStrings sampleQuery "FRANCE" "france"
      (by decide)⟩

/-! ## FindCountriesByCurrency -/

/-- C6, as stated, fails: the guard counts bytes, not characters. The input `€`
is one character long and is not rejected as InvalidFormat (it takes 3 bytes,
is looked up in the currency index and is not found there); the input `a€b`
is exactly three characters long and fails with InvalidFormat (it takes 5
bytes). -/
theorem FindCountriesByCurrency_characters_counterexample :
    (charCount "€" = 1 ∧
      FindCountriesByCurrency sampleQuery "€" =
        .error (makeError "Could not find countries with currency name" "€") ∧
      failKind? (FindCountriesByCurrency sampleQuery "€") ≠
        some ErrorKind.InvalidFormat) ∧
    (charCount "a€b" = 3 ∧
      failKind? (FindCountriesByCurrency sampleQuery "a€b") =
        some ErrorKind.InvalidFormat) := by
  decide

/-- C6, amended. `FindCountriesByCurrency` requires exactly 3 bytes (`len`):
every input whose `len` is not 3 fails with InvalidFormat, carrying the input,
whatever the currency index holds, and an input whose `len` is 3 never fails
with InvalidFormat. -/
theorem FindCountriesByCurrency_invalidFormat_iff (q : Query) (currency : String) :
    (failKind? (FindCountriesByCurrency q currency) = some ErrorKind.InvalidFormat ↔
      len currency ≠ 3) ∧
    (len currency ≠ 3 →
      FindCountriesByCurrency q currency =
        .error (makeError "Invalid currency format" currency)) ∧
    (∀ q' : Query, len currency ≠ 3 →
      FindCountriesByCurrency q' currency = FindCountriesByCurrency q currency) := by
  refine ⟨?_, ?_, ?_⟩
  · unfold FindCountriesByCurrency
    by_cases h3 : len currency = 3
    · simp only [h3, ne_eq, not_true_eq_false, if_false]
      cases q.CurrencyToAlpha2.find? currency <;>
        simp [failKind?, LookupError.kind, makeError]
    · simp [h3, failKind?, LookupError.kind, makeError]
  · intro h
    simp [FindCountriesByCurrency, h]
  · intro q' h
    simp [FindCountriesByCurrency, h]

/-- Witness of the amended C6: the two-byte input `US` fails with
InvalidFormat. -/
theorem FindCountriesByCurrency_invalidFormat_iff_witness :
    FindCountriesByCurrency sampleQuery "US" =
      .error (makeError "Invalid currency format" "US") :=
  (FindCountriesByCurrency_invalidFormat_iff sampleQuery "US").2.1 (by decide)

/-- C7, as stated, fails: a code of three characters need not pass the guard,
which counts bytes. The code `a€b` is three characters long and takes 5 bytes:
in an engine whose currency index has an entry for it the lookup does not
return the stored sequence but fails with InvalidFormat, and in the sample
engine, whose index has no entry for it, the failure is InvalidFormat and not
NotFound. -/
theorem FindCountriesByCurrency_three_characters_counterexample :
    charCount "a€b" = 3 ∧ len "a€b" = 5 ∧
    threeCharCurrencyQuery.CurrencyToAlpha2.find? "a€b" = some [sampleFR] ∧
    FindCountriesByCurrency threeCharCurrencyQuery "a€b" =
      .error (makeError "Invalid currency format" "a€b") ∧
    FindCountriesByCurrency threeCharCurrencyQuery "a€b" ≠ .ok [sampleFR] ∧
    sampleQuery.CurrencyToAlpha2.find? "a€b" = none ∧
    failKind? (FindCountriesByCurrency sampleQuery "a€b") =
      some ErrorKind.InvalidFormat ∧
    failKind? (FindCountriesByCurrency sampleQuery "a€b") ≠
      some ErrorKind.NotFound := by
  decide

/-- C7, amended. For a currency code `c` of exactly 3 bytes (`len c = 3`, the
codes that pass the format guard): if the currency index has an entry for `c`,
`FindCountriesByCurrency` succeeds with exactly the sequence stored under `c`;
if it has none, the lookup fails with NotFound, carrying `c`, and does not
return an empty success. -/
theorem FindCountriesByCurrency_lookup (q : Query) (c : String) (hlen : len c = 3) :
    (∀ cs, q.CurrencyToAlpha2.find? c = some cs →
      FindCountriesByCurrency q c = .ok cs) ∧
    (q.CurrencyToAlpha2.find? c = none →
      FindCountriesByCurrency q c =
        .error (makeError "Could not find countries with currency name" c) ∧
      failKind? (FindCountriesByCurrency q c) = some ErrorKind.NotFound ∧
      FindCountriesByCurrency q c ≠ .ok []) := by
  refine ⟨?_, ?_⟩
  · intro cs h
    simp [FindCountriesByCurrency, hlen, h]
  · intro h
    simp [FindCountriesByCurrency, hlen, h, failKind?, LookupError.kind, makeError]

/-- Witness of the amended C7: `EUR` gives the three countries stored under it, `USD` has
no entry in the sample index and is not found. -/
theorem FindCountriesByCurrency_lookup_witness :
    FindCountriesByCurrency sampleQuery "EUR" = .ok [sampleFR, sampleDE, sampleES] ∧
    failKind? (FindCountriesByCurrency sampleQuery "USD") = some ErrorKind.NotFound :=
  ⟨(FindCountriesByCurrency_lookup sampleQuery "EUR" (by decide)).1 _ (by decide),
   ((FindCountriesByCurrency_lookup sampleQuery "USD" (by decide)).2 (by decide)).2.1⟩

/-! ## FindCountries: the loop as a filter -/

theorem FindCountries.body_eq (S : Strings) (BorderingCountries : Country → List Country)
    (c : Country) (countries : List Country) (country : Country) :
    FindCountries.body S BorderingCountries c countries country =
      if Matches S BorderingCountries c country then countries ++ [country]
      else countries := by
  unfold FindCountries.body Matches
  split_ifs <;> simp_all

theorem FindCountries.foldl_body (S : Strings)
    (BorderingCountries : Country → List Country) (c : Country) :
    ∀ (l countries : List Country),
      l.foldl (FindCountries.body S BorderingCountries c) countries =
        countries ++ l.filter (fun country => decide (Matches S BorderingCountries c country))
  | [], countries => by simp
  | country :: rest, countries => by
    rw [List.foldl_cons, FindCountries.foldl_body S BorderingCountries c rest,
      FindCountries.body_eq]
    by_cases h : Matches S BorderingCountries c country
    · simp [h, List.filter_cons]
    · simp [h, List.filter_cons]

theorem FindCountries_eq_filter (S : Strings)
    (BorderingCountries : Country → List Country) (q : Query) (c : Country) :
    FindCountries S BorderingCountries q c =
      q.Countries.values.filter
        (fun country => decide (Matches S BorderingCountries c country)) := by
  unfold FindCountries
  rw [FindCountries.foldl_body]
  simp

/-! ## FindCountries: the border loops -/

theorem borderMatchLoop_cons (c1 c2 : Country) (rest : List Country) (m : Bool) :
    borderMatchLoop c1 (c2 :: rest) m =
      (decide (c1.Alpha2 = c2.Alpha2) || borderMatchLoop c1 rest false) := by
  by_cases h : c1.Alpha2 = c2.Alpha2 <;> simp [borderMatchLoop, h]

theorem borderMatchLoop_iff (c1 : Country) :
    ∀ l : List Country,
      borderMatchLoop c1 l false = true ↔ ∃ c2 ∈ l, c1.Alpha2 = c2.Alpha2
  | [] => by simp [borderMatchLoop]
  | c2 :: rest => by
    rw [borderMatchLoop_cons, Bool.or_eq_true, borderMatchLoop_iff c1 rest]
    simp

theorem borderAllMatchLoop_true_iff (candidate : List Country) :
    ∀ l : List Country,
      borderAllMatchLoop candidate l true = true ↔ BordersIncluded l candidate
  | [] => by simp [borderAllMatchLoop, BordersIncluded]
  | c1 :: rest => by
    unfold borderAllMatchLoop
    by_cases h : borderMatchLoop c1 candidate false = true
    · have h' := (borderMatchLoop_iff c1 candidate).mp h
      simp only [h, if_true, borderAllMatchLoop_true_iff candidate rest]
      unfold BordersIncluded
      simp only [List.forall_mem_cons]
      exact ⟨fun hr => ⟨h', hr⟩, fun hr => hr.2⟩
    · have h' : ¬ ∃ c2 ∈ candidate, c1.Alpha2 = c2.Alpha2 :=
        fun he => h ((borderMatchLoop_iff c1 candidate).mpr he)
      simp only [h, if_false]
      unfold BordersIncluded
      simp only [List.forall_mem_cons]
      exact ⟨fun hf => Bool.noConfusion hf, fun hr => absurd hr.1 h'⟩

theorem borderAllMatchLoop_iff (candidate l : List Country) (hl : l ≠ []) :
    borderAllMatchLoop candidate l false = true ↔ BordersIncluded l candidate := by
  cases l with
  | nil => exact absurd rfl hl
  | cons c1 rest =>
    rw [← borderAllMatchLoop_true_iff]
    unfold borderAllMatchLoop
    rfl

/-! ## FindCountries: templates -/

theorem filter_eq_singleton_of_nodup {α β : Type} [DecidableEq β] (f : α → β) :
    ∀ l : List α, (l.map f).Nodup → ∀ x ∈ l,
      l.filter (fun y => decide (f y = f x)) = [x]
  | [], _, x, hx => by simp at hx
  | y :: rest, hnd, x, hx => by
    rw [List.map_cons, List.nodup_cons] at hnd
    rcases List.mem_cons.mp hx with rfl | hmem
    · have hrest : rest.filter (fun y => decide (f y = f x)) = [] := by
        rw [List.filter_eq_nil_iff]
        intro y hy hfy
        exact hnd.1 (List.mem_map.mpr ⟨y, hy, of_decide_eq_true hfy⟩)
      simp [List.filter_cons, hrest]
    · have hne : ¬ f y = f x := fun h =>
        hnd.1 (h ▸ List.mem_map.mpr ⟨x, hmem, rfl⟩)
      simp only [List.filter_cons, hne, decide_False, Bool.false_eq_true, if_false]
      exact filter_eq_singleton_of_nodup f rest hnd.2 x hmem

theorem values_alpha2_nodup (q : Query)
    (hkeyed : ∀ e ∈ q.Countries.entries, e.2.Alpha2 = e.1) :
    (q.Countries.values.map (fun C => C.Alpha2)).Nodup := by
  have h : q.Countries.values.map (fun C => C.Alpha2) = q.Countries.val.map Prod.fst := by
    unfold GoMap.values
    rw [List.map_map]
    exact List.map_congr_left hkeyed
  rw [h]
  exact q.Countries.property

/-- C8. `FindCountries` on the empty template (the zero value, which has no
bordering countries) returns the record of every entry of the primary store,
one per entry in scan order: its length is the number of entries of the
mapping returned by `FindAllCountries`. -/
theorem FindCountries_empty_template (S : Strings)
    (BorderingCountries : Country → List Country) (q : Query)
    (hbc : BorderingCountries Country.zero = []) :
    FindCountries S BorderingCountries q Country.zero =
      (FindAllCountries q).entries.map Prod.snd ∧
    (FindCountries S BorderingCountries q Country.zero).length =
      (FindAllCountries q).size := by
  have hall : FindCountries S BorderingCountries q Country.zero = q.Countries.values := by
    rw [FindCountries_eq_filter, List.filter_eq_self]
    intro country _
    have hm : Matches S BorderingCountries Country.zero country := by
      unfold Matches
      rw [hbc]
      simp [Country.zero]
    exact decide_eq_true hm
  refine ⟨hall, ?_⟩
  rw [hall]
  simp [GoMap.values, GoMap.size, FindAllCountries]

/-- Witness of C8: the empty template returns the three countries of the sample
engine. -/
theorem FindCountries_empty_template_witness :
    FindCountries asciiStrings sampleBordering sampleQuery Country.zero =
      [sampleFR, sampleDE, sampleES] ∧
    (FindCountries asciiStrings sampleBordering sampleQuery Country.zero).length =
      (FindAllCountries sampleQuery).size :=
  ⟨(FindCountries_empty_template asciiStrings sampleBordering sampleQuery
      (by decide)).1.trans (by decide),
   (FindCountries_empty_template asciiStrings sampleBordering sampleQuery
      (by decide)).2⟩

/-- C9. In an engine where every store entry is keyed by its record's alpha2
code, `FindCountries` with the template whose only populated field is
`Alpha2 = a` returns exactly the one-element sequence holding the stored
country whose alpha2 code equals `a` (exact string equality), and the empty
sequence when no stored country has that code. -/
theorem FindCountries_alpha2_only (S : Strings)
    (BorderingCountries : Country → List Country) (q : Query) (a : String)
    (ha : a ≠ "") (hbc : BorderingCountries (alpha2Template a) = [])
    (hkeyed : ∀ e ∈ q.Countries.entries, e.2.Alpha2 = e.1) :
    (∀ C ∈ q.Countries.values, C.Alpha2 = a →
      FindCountries S BorderingCountries q (alpha2Template a) = [C]) ∧
    ((∀ C ∈ q.Countries.values, C.Alpha2 ≠ a) →
      FindCountries S BorderingCountries q (alpha2Template a) = []) := by
  have hm : ∀ country, Matches S BorderingCountries (alpha2Template a) country ↔
      country.Alpha2 = a := by
    intro country
    unfold Matches
    rw [hbc]
    simp only [alpha2Template, Country.zero]
    simp [ha]
    exact eq_comm
  have hfilter : FindCountries S BorderingCountries q (alpha2Template a) =
      q.Countries.values.filter (fun country => decide (country.Alpha2 = a)) := by
    rw [FindCountries_eq_filter]
    congr 1
    funext country
    exact decide_eq_decide.mpr (hm country)
  refine ⟨?_, ?_⟩
  · intro C hC hCa
    rw [hfilter, ← hCa]
    exact filter_eq_singleton_of_nodup (fun C => C.Alpha2) q.Countries.values
      (values_alpha2_nodup q hkeyed) C hC
  · intro hnone
    rw [hfilter, List.filter_eq_nil_iff]
    intro C hC hd
    exact hnone C hC (of_decide_eq_true hd)

/-- Witness of C9: the template `Alpha2 = FR` returns France alone, the
lower-case `fr` returns the empty sequence. -/
theorem FindCountries_alpha2_only_witness :
    FindCountries asciiStrings sampleBordering sampleQuery (alpha2Template "FR") =
      [sampleFR] ∧
    FindCountries asciiStrings sampleBordering sampleQuery (alpha2Template "fr") = [] :=
  ⟨(FindCountries_alpha2_only asciiStrings sampleBordering sampleQuery "FR"
      (by decide) (by decide) (by decide)).1 sampleFR (by decide) (by decide),
   (FindCountries_alpha2_only asciiStrings sampleBordering sampleQuery "fr"
      (by decide) (by decide) (by decide)).2 (by decide)⟩

/-- C10. Border subset match: for a template whose scalar fields are all empty
and whose list of bordering countries is not empty, `FindCountries` returns,
in scan order, exactly the stored countries for which every border of the
template is among the country's own borders, compared by exact alpha2 code.
With the single border `de` these are the stored countries that have a border
with the alpha2 code of `de`. -/
theorem FindCountries_borders_only (S : Strings)
    (BorderingCountries : Country → List Country) (q : Query) (c : Country)
    (hs : ScalarsEmpty c) (hbc : BorderingCountries c ≠ []) :
    FindCountries S BorderingCountries q c =
      q.Countries.values.filter (fun country =>
        decide (BordersIncluded (BorderingCountries c) (BorderingCountries country))) ∧
    (∀ country, country ∈ FindCountries S BorderingCountries q c ↔
      country ∈ q.Countries.values ∧
        ∀ c1 ∈ BorderingCountries c, ∃ c2 ∈ BorderingCountries country,
          c1.Alpha2 = c2.Alpha2) ∧
    (∀ de, BorderingCountries c = [de] →
      ∀ country, country ∈ FindCountries S BorderingCountries q c ↔
        country ∈ q.Countries.values ∧
          ∃ c2 ∈ BorderingCountries country, c2.Alpha2 = de.Alpha2) := by
  obtain ⟨h1, h2, h3, h4, h5, h6, h7⟩ := hs
  have hpos : (BorderingCountries c).length > 0 := List.length_pos.mpr hbc
  have hm : ∀ country, Matches S BorderingCountries c country ↔
      BordersIncluded (BorderingCountries c) (BorderingCountries country) := by
    intro country
    unfold Matches
    rw [h1, h2, h3, h4, h5, h6, h7, borderAllMatchLoop_iff _ _ hbc]
    simp [hpos]
  have hfilter : FindCountries S BorderingCountries q c =
      q.Countries.values.filter (fun country =>
        decide (BordersIncluded (BorderingCountries c) (BorderingCountries country))) := by
    rw [FindCountries_eq_filter]
    congr 1
    funext country
    exact decide_eq_decide.mpr (hm country)
  have hmem : ∀ country, country ∈ FindCountries S BorderingCountries q c ↔
      country ∈ q.Countries.values ∧
        ∀ c1 ∈ BorderingCountries c, ∃ c2 ∈ BorderingCountries country,
          c1.Alpha2 = c2.Alpha2 := by
    intro country
    rw [hfilter, List.mem_filter, decide_eq_true_iff]
    rfl
  refine ⟨hfilter, hmem, ?_⟩
  intro de hde country
  rw [hmem country, hde]
  simp only [List.forall_mem_singleton]
  exact and_congr_right fun _ =>
    exists_congr fun _ => and_congr_right fun _ => eq_comm

/-- Witness of C10: the template listing only the border `DE` returns France,
the one sample country with a border to Germany. -/
theorem FindCountries_borders_only_witness :
    FindCountries asciiStrings sampleBordering sampleQuery (bordersTemplate ["DE"]) =
      [sampleFR] :=
  (FindCountries_borders_only asciiStrings sampleBordering sampleQuery
    (bordersTemplate ["DE"]) (by decide) (by decide)).1.trans (by decide)

/-! ## FindCountries: the name and the geographic guards -/

theorem FindCountries_name_only (S : Strings)
    (BorderingCountries : Country → List Country) (q : Query) (n : String)
    (hn : n ≠ "") (hbc : BorderingCountries (nameTemplate n) = []) :
    FindCountries S BorderingCountries q (nameTemplate n) =
      q.Countries.values.filter (fun country => ! S.EqualFold n country.Name.Common) := by
  rw [FindCountries_eq_filter]
  congr 1
  funext country
  have hm : Matches S BorderingCountries (nameTemplate n) country ↔
      ¬ S.EqualFold n country.Name.Common = true := by
    unfold Matches
    rw [hbc]
    simp only [nameTemplate, Country.zero]
    simp [hn]
  by_cases h : S.EqualFold n country.Name.Common = true
  · simp [h, hm]
  · simp [h, hm]

/-- C11 (code defect). The common-name guard of `FindCountries` is inverted: on
the sample engine the template whose only populated field is the common name
`France` returns Germany and Spain, the two countries whose common name
differs from it, and not France, whose common name equals it. -/
theorem FindCountries_name_guard_inverted :
    FindCountries asciiStrings sampleBordering sampleQuery (nameTemplate "France") =
      [sampleDE, sampleES] ∧
    asciiStrings.EqualFold "France" sampleFR.Name.Common = true ∧
    sampleFR ∈ sampleQuery.Countries.values ∧
    sampleFR ∉ FindCountries asciiStrings sampleBordering sampleQuery
      (nameTemplate "France") ∧
    asciiStrings.EqualFold "France" sampleDE.Name.Common = false ∧
    sampleDE ∈ FindCountries asciiStrings sampleBordering sampleQuery
      (nameTemplate "France") := by
  decide

/-- C12. Geographic predicates: for a template whose only populated fields are
among continent, region and subregion, `FindCountries` returns, in scan order,
exactly the stored countries that equal the template under `EqualFold` on
each of those fields that is not empty. With only the continent populated
these are the stored countries whose continent equals it ignoring case. -/
theorem FindCountries_geo_only (S : Strings)
    (BorderingCountries : Country → List Country) (q : Query) (c : Country)
    (hname : c.Name.Common = "") (ha2 : c.Alpha2 = "") (ha3 : c.Alpha3 = "")
    (hpre : Country.InternationalPrefix c = "") (hbc : BorderingCountries c = []) :
    FindCountries S BorderingCountries q c =
      q.Countries.values.filter (fun country => decide (GeoAgrees S c country)) ∧
    (∀ country, country ∈ FindCountries S BorderingCountries q c ↔
      country ∈ q.Countries.values ∧ GeoAgrees S c country) ∧
    (c.Geo.Region = "" → c.Geo.SubRegion = "" → c.Geo.Continent ≠ "" →
      ∀ country, country ∈ FindCountries S BorderingCountries q c ↔
        country ∈ q.Countries.values ∧
          S.EqualFold c.Geo.Continent country.Geo.Continent = true) := by
  have hm : ∀ country, Matches S BorderingCountries c country ↔ GeoAgrees S c country := by
    intro country
    unfold Matches GeoAgrees
    rw [hname, ha2, ha3, hpre, hbc]
    simp only [ne_eq, not_true_eq_false, false_and, not_false_eq_true, true_and,
      List.length_nil, gt_iff_lt, lt_self_iff_false, false_implies, and_true]
    simp only [not_and, not_not]
    simp only [imp_iff_or_not, not_not, or_comm]
  have hfilter : FindCountries S BorderingCountries q c =
      q.Countries.values.filter (fun country => decide (GeoAgrees S c country)) := by
    rw [FindCountries_eq_filter]
    congr 1
    funext country
    exact decide_eq_decide.mpr (hm country)
  have hmem : ∀ country, country ∈ FindCountries S BorderingCountries q c ↔
      country ∈ q.Countries.values ∧ GeoAgrees S c country := by
    intro country
    rw [hfilter, List.mem_filter, decide_eq_true_iff]
  refine ⟨hfilter, hmem, ?_⟩
  intro hr hs hc country
  rw [hmem country]
  unfold GeoAgrees
  simp [hr, hs, hc]

/-- Witness of C12: the continent `EUROPE` returns the three sample countries,
the subregion `western europe` returns France and Germany. -/
theorem FindCountries_geo_only_witness :
    FindCountries asciiStrings sampleBordering sampleQuery (geoTemplate "EUROPE" "" "") =
      [sampleFR, sampleDE, sampleES] ∧
    FindCountries asciiStrings sampleBordering sampleQuery
      (geoTemplate "" "" "western europe") = [sampleFR, sampleDE] :=
  ⟨(FindCountries_geo_only asciiStrings sampleBordering sampleQuery
      (geoTemplate "EUROPE" "" "") (by decide) (by decide) (by decide) (by decide)
      (by decide)).1.trans (by decide),
   (FindCountries_geo_only asciiStrings sampleBordering sampleQuery
      (geoTemplate "" "" "western europe") (by decide) (by decide) (by decide) (by decide)
      (by decide)).1.trans (by decide)⟩

/-! ## FindSubdivisionCountryByName -/

theorem FindSubdivisionCountryByName.loop_cons (S : Strings) (subdivisionName : String)
    (country : Country) (rest : List Country) :
    FindSubdivisionCountryByName.loop S subdivisionName (country :: rest) =
      if HasSubdivision S subdivisionName country = true then .ok country
      else FindSubdivisionCountryByName.loop S subdivisionName rest := by
  unfold HasSubdivision
  rw [FindSubdivisionCountryByName.loop]
  cases country.nameToSubdivision.find? (S.ToLower subdivisionName) <;> simp

theorem FindSubdivisionCountryByName.loop_error_iff (S : Strings)
    (subdivisionName : String) (e : LookupError) :
    ∀ l : List Country,
      FindSubdivisionCountryByName.loop S subdivisionName l = .error e ↔
        e = makeError "Invalid subdivision name" subdivisionName ∧
          ∀ country ∈ l, HasSubdivision S subdivisionName country = false
  | [] => by
    simp only [FindSubdivisionCountryByName.loop, Except.error.injEq, List.not_mem_nil,
      false_implies, implies_true, and_true]
    exact eq_comm
  | country :: rest => by
    rw [FindSubdivisionCountryByName.loop_cons]
    by_cases h : HasSubdivision S subdivisionName country = true
    · simp [h]
    · have h' : HasSubdivision S subdivisionName country = false := by simpa using h
      simp [h', FindSubdivisionCountryByName.loop_error_iff S subdivisionName e rest]

theorem FindSubdivisionCountryByName.loop_ok_iff (S : Strings)
    (subdivisionName : String) (C : Country) :
    ∀ l : List Country,
      FindSubdivisionCountryByName.loop S subdivisionName l = .ok C ↔
        ∃ before after, l = before ++ C :: after ∧
          (∀ country ∈ before, HasSubdivision S subdivisionName country = false) ∧
          HasSubdivision S subdivisionName C = true
  | [] => by
    simp [FindSubdivisionCountryByName.loop]
  | country :: rest => by
    rw [FindSubdivisionCountryByName.loop_cons]
    by_cases h : HasSubdivision S subdivisionName country = true
    · rw [if_pos h]
      constructor
      · intro hC
        cases hC
        exact ⟨[], rest, rfl, by simp, h⟩
      · rintro ⟨before, after, hl, hbefore, _⟩
        cases before with
        | nil =>
          simp only [List.nil_append, List.cons.injEq] at hl
          rw [hl.1]
        | cons b bs =>
          simp only [List.cons_append, List.cons.injEq] at hl
          have hb := hbefore b (List.mem_cons_self _ _)
          rw [← hl.1, h] at hb
          exact Bool.noConfusion hb
    · have h' : HasSubdivision S subdivisionName country = false := by simpa using h
      rw [if_neg h, FindSubdivisionCountryByName.loop_ok_iff S subdivisionName C rest]
      constructor
      · rintro ⟨before, after, hl, hbefore, hC⟩
        refine ⟨country :: before, after, by rw [hl]; rfl, ?_, hC⟩
        intro x hx
        rcases List.mem_cons.mp hx with rfl | hx
        · exact h'
        · exact hbefore x hx
      · rintro ⟨before, after, hl, hbefore, hC⟩
        cases before with
        | nil =>
          simp only [List.nil_append, List.cons.injEq] at hl
          rw [hl.1, hC] at h'
          exact Bool.noConfusion h'
        | cons b bs =>
          simp only [List.cons_append, List.cons.injEq] at hl
          exact ⟨bs, after, hl.2, fun x hx => hbefore x (List.mem_cons_of_mem _ hx), hC⟩

theorem FindSubdivisionCountryByName.loop_ok_of_exists (S : Strings)
    (subdivisionName : String) :
    ∀ l : List Country, (∃ country ∈ l, HasSubdivision S subdivisionName country = true) →
      ∃ C, FindSubdivisionCountryByName.loop S subdivisionName l = .ok C
  | [], h => by simp at h
  | country :: rest, h => by
    rw [FindSubdivisionCountryByName.loop_cons]
    by_cases hc : HasSubdivision S subdivisionName country = true
    · exact ⟨country, by rw [if_pos hc]⟩
    · rw [if_neg hc]
      apply FindSubdivisionCountryByName.loop_ok_of_exists S subdivisionName rest
      obtain ⟨x, hx, hhas⟩ := h
      rcases List.mem_cons.mp hx with rfl | hx
      · exact absurd hhas hc
      · exact ⟨x, hx, hhas⟩

/-- C13. `FindSubdivisionCountryByName` fails exactly when no stored country's
subdivision-name index contains the lower-cased name: the failure is then the
error built from `Invalid subdivision name` and the name itself, of kind
NotFound; otherwise the lookup succeeds with a stored country whose
subdivision-name index contains the lower-cased name. -/
theorem FindSubdivisionCountryByName_fails_iff (S : Strings) (q : Query)
    (subdivisionName : String) :
    (FindSubdivisionCountryByName S q subdivisionName =
        .error (makeError "Invalid subdivision name" subdivisionName) ↔
      ∀ country ∈ q.Countries.values,
        country.nameToSubdivision.find? (S.ToLower subdivisionName) = none) ∧
    (failKind? (FindSubdivisionCountryByName S q subdivisionName) =
        some ErrorKind.NotFound ↔
      ∀ country ∈ q.Countries.values,
        country.nameToSubdivision.find? (S.ToLower subdivisionName) = none) ∧
    ((∃ country ∈ q.Countries.values,
        country.nameToSubdivision.find? (S.ToLower subdivisionName) ≠ none) →
      ∃ C ∈ q.Countries.values,
        FindSubdivisionCountryByName S q subdivisionName = .ok C ∧
        C.nameToSubdivision.find? (S.ToLower subdivisionName) ≠ none) := by
  have hhas : ∀ country : Country,
      HasSubdivision S subdivisionName country = false ↔
        country.nameToSubdivision.find? (S.ToLower subdivisionName) = none := by
    intro country
    unfold HasSubdivision
    cases country.nameToSubdivision.find? (S.ToLower subdivisionName) <;> simp
  have herr : FindSubdivisionCountryByName S q subdivisionName =
        .error (makeError "Invalid subdivision name" subdivisionName) ↔
      ∀ country ∈ q.Countries.values,
        country.nameToSubdivision.find? (S.ToLower subdivisionName) = none := by
    unfold FindSubdivisionCountryByName
    rw [FindSubdivisionCountryByName.loop_error_iff]
    simp only [true_and]
    exact forall_congr' fun country => imp_congr_right fun _ => hhas country
  refine ⟨herr, ?_, ?_⟩
  · rw [← herr]
    constructor
    · intro hk
      cases hres : FindSubdivisionCountryByName S q subdivisionName with
      | error e =>
        unfold FindSubdivisionCountryByName at hres
        rw [((FindSubdivisionCountryByName.loop_error_iff S subdivisionName e _).mp hres).1]
      | ok C =>
        rw [hres] at hk
        simp [failKind?] at hk
    · intro hres
      rw [hres]
      simp [failKind?, LookupError.kind, makeError]
  · rintro ⟨country, hmem, hsome⟩
    have hex : ∃ country ∈ q.Countries.values,
        HasSubdivision S subdivisionName country = true := by
      refine ⟨country, hmem, ?_⟩
      cases hb : HasSubdivision S subdivisionName country with
      | true => rfl
      | false => exact absurd ((hhas country).mp hb) hsome
    obtain ⟨C, hC⟩ :=
      FindSubdivisionCountryByName.loop_ok_of_exists S subdivisionName _ hex
    obtain ⟨before, after, hl, _, hCh⟩ :=
      (FindSubdivisionCountryByName.loop_ok_iff S subdivisionName C _).mp hC
    refine ⟨C, ?_, hC, ?_⟩
    · rw [hl]
      simp
    · intro hnone
      rw [(hhas C).mpr hnone] at hCh
      exact Bool.noConfusion hCh

/-- Witness of C13: `Bretagne` is a subdivision of France in the sample engine
and is found; `Texas` is a subdivision of no sample country and fails. -/
theorem FindSubdivisionCountryByName_fails_iff_witness :
    (∃ C ∈ sampleQuery.Countries.values,
      FindSubdivisionCountryByName asciiStrings sampleQuery "Bretagne" = .ok C ∧
      C.nameToSubdivision.find? (asciiStrings.ToLower "Bretagne") ≠ none) ∧
    FindSubdivisionCountryByName asciiStrings sampleQuery "Texas" =
      .error (makeError "Invalid subdivision name" "Texas") :=
  ⟨(FindSubdivisionCountryByName_fails_iff asciiStrings sampleQuery "Bretagne").2.2
      ⟨sampleFR, by decide, by decide⟩,
   (FindSubdivisionCountryByName_fails_iff asciiStrings sampleQuery "Texas").1.mpr
      (by decide)⟩

/-! ## Enumerations of the same store -/

theorem lookup_eq_of_perm {V : Type} (k : String) (l1 l2 : List (String × V))
    (hnd1 : (l1.map Prod.fst).Nodup) (hnd2 : (l2.map Prod.fst).Nodup) (h : l1.Perm l2) :
    l1.lookup k = l2.lookup k := by
  cases h1 : l1.lookup k with
  | some v =>
    exact (lookup_of_mem_nodup k v l2 hnd2 (h.mem_iff.mp (mem_of_lookup k v l1 h1))).symm
  | none =>
    cases h2 : l2.lookup k with
    | none => rfl
    | some v =>
      have h3 := lookup_of_mem_nodup k v l1 hnd1 (h.mem_iff.mpr (mem_of_lookup k v l2 h2))
      rw [h1] at h3
      exact h3

theorem GoMap.find?_eq_of_perm {V : Type} (m1 m2 : GoMap V)
    (h : m1.entries.Perm m2.entries) (k : String) : m1.find? k = m2.find? k :=
  lookup_eq_of_perm k m1.val m2.val m1.property m2.property h

theorem GoMap.values_perm {V : Type} (m1 m2 : GoMap V)
    (h : m1.entries.Perm m2.entries) : m1.values.Perm m2.values :=
  List.Perm.map Prod.snd h

theorem hasSubdivision_eq_false_iff (S : Strings) (subdivisionName : String)
    (country : Country) :
    HasSubdivision S subdivisionName country = false ↔
      country.nameToSubdivision.find? (S.ToLower subdivisionName) = none := by
  unfold HasSubdivision
  cases country.nameToSubdivision.find? (S.ToLower subdivisionName) <;> simp

/-- C14, as stated, fails: the two engine states below hold the same store and
the same indices and differ only in the order in which the primary store is
enumerated, yet `FindCountries` returns its result in two different orders and
`FindSubdivisionCountryByName` chooses two different countries for `Limburg`,
a subdivision name of both the Netherlands and Belgium. -/
theorem repeated_scan_counterexample :
    SameStore limburgQuery limburgQuerySwapped ∧
    FindCountries asciiStrings noBordering limburgQuery Country.zero =
      [sampleNL, sampleBE] ∧
    FindCountries asciiStrings noBordering limburgQuerySwapped Country.zero =
      [sampleBE, sampleNL] ∧
    FindCountries asciiStrings noBordering limburgQuery Country.zero ≠
      FindCountries asciiStrings noBordering limburgQuerySwapped Country.zero ∧
    FindSubdivisionCountryByName asciiStrings limburgQuery "Limburg" = .ok sampleNL ∧
    FindSubdivisionCountryByName asciiStrings limburgQuerySwapped "Limburg" =
      .ok sampleBE ∧
    FindSubdivisionCountryByName asciiStrings limburgQuery "Limburg" ≠
      FindSubdivisionCountryByName asciiStrings limburgQuerySwapped "Limburg" := by
  decide

/-- C14, amended. For two states of an engine that differ only in the order in
which the primary store is enumerated: the five keyed lookups give identical
results and `FindAllCountries` gives the same mapping; `FindCountries` gives
the same countries with the same multiplicities (a permutation), and the same
sequence when the enumeration is the same; `FindSubdivisionCountryByName`
fails identically on both or succeeds on both, with the same country when the
enumeration is the same or when at most one stored country has the
subdivision. -/
theorem lookups_repeatable (S : Strings) (BorderingCountries : Country → List Country)
    (q1 q2 : Query) (h : SameStore q1 q2) :
    (∀ name, FindCountryByName S q1 name = FindCountryByName S q2 name) ∧
    (∀ name, FindCountryByNativeName S q1 name = FindCountryByNativeName S q2 name) ∧
    (∀ code, FindCountryByAlpha S q1 code = FindCountryByAlpha S q2 code) ∧
    (∀ callingCode,
      FindCountryByCallingCode q1 callingCode = FindCountryByCallingCode q2 callingCode) ∧
    (∀ currency,
      FindCountriesByCurrency q1 currency = FindCountriesByCurrency q2 currency) ∧
    (∀ k, (FindAllCountries q1).find? k = (FindAllCountries q2).find? k) ∧
    (∀ c, (FindCountries S BorderingCountries q1 c).Perm
      (FindCountries S BorderingCountries q2 c)) ∧
    (∀ name e, FindSubdivisionCountryByName S q1 name = .error e ↔
      FindSubdivisionCountryByName S q2 name = .error e) ∧
    (∀ name,
      (∀ C1 ∈ q1.Countries.values, ∀ C2 ∈ q1.Countries.values,
        HasSubdivision S name C1 = true → HasSubdivision S name C2 = true → C1 = C2) →
      FindSubdivisionCountryByName S q1 name = FindSubdivisionCountryByName S q2 name) ∧
    (q1.Countries.entries = q2.Countries.entries →
      (∀ c, FindCountries S BorderingCountries q1 c =
        FindCountries S BorderingCountries q2 c) ∧
      (∀ name, FindSubdivisionCountryByName S q1 name =
        FindSubdivisionCountryByName S q2 name)) := by
  obtain ⟨hperm, hname, ha3, hnative, hcall, hcur⟩ := h
  have hfind : ∀ k, q1.Countries.find? k = q2.Countries.find? k :=
    GoMap.find?_eq_of_perm _ _ hperm
  have hget : ∀ k, q1.Countries.get Country.zero k = q2.Countries.get Country.zero k := by
    intro k
    simp [GoMap.get, hfind k]
  have hvalues : q1.Countries.values.Perm q2.Countries.values :=
    GoMap.values_perm _ _ hperm
  have herr : ∀ name e, FindSubdivisionCountryByName S q1 name = .error e ↔
      FindSubdivisionCountryByName S q2 name = .error e := by
    intro name e
    unfold FindSubdivisionCountryByName
    rw [FindSubdivisionCountryByName.loop_error_iff,
      FindSubdivisionCountryByName.loop_error_iff]
    exact and_congr_right fun _ =>
      forall_congr' fun country => imp_congr_left hvalues.mem_iff
  refine ⟨?_, ?_, ?_, ?_, ?_, hfind, ?_, herr, ?_, ?_⟩
  · intro name
    simp only [FindCountryByName, hname, hget]
  · intro name
    simp only [FindCountryByNativeName, hnative, hget]
  · intro code
    simp only [FindCountryByAlpha, ha3, hget, hfind]
  · intro callingCode
    simp only [FindCountryByCallingCode, hcall, hget]
  · intro currency
    simp only [FindCountriesByCurrency, hcur]
  · intro c
    rw [FindCountries_eq_filter, FindCountries_eq_filter]
    exact List.Perm.filter _ hvalues
  · intro name huniq
    cases hres : FindSubdivisionCountryByName S q1 name with
    | error e => exact ((herr name e).mp hres).symm
    | ok C1 =>
      unfold FindSubdivisionCountryByName at hres
      obtain ⟨before, after, hl, _, hC1⟩ :=
        (FindSubdivisionCountryByName.loop_ok_iff S name C1 _).mp hres
      have hmem1 : C1 ∈ q1.Countries.values := by rw [hl]; simp
      obtain ⟨C2, hC2⟩ := FindSubdivisionCountryByName.loop_ok_of_exists S name
        q2.Countries.values ⟨C1, hvalues.mem_iff.mp hmem1, hC1⟩
      obtain ⟨before2, after2, hl2, _, hC2h⟩ :=
        (FindSubdivisionCountryByName.loop_ok_iff S name C2 _).mp hC2
      have hmem2 : C2 ∈ q1.Countries.values := by
        apply hvalues.mem_iff.mpr
        rw [hl2]; simp
      have heq : C1 = C2 := huniq C1 hmem1 C2 hmem2 hC1 hC2h
      unfold FindSubdivisionCountryByName
      rw [hC2, heq]
  · intro hsame
    have hvals : q1.Countries.values = q2.Countries.values := by
      unfold GoMap.values
      unfold GoMap.entries at hsame
      rw [hsame]
    refine ⟨?_, ?_⟩
    · intro c
      unfold FindCountries
      rw [hvals]
    · intro name
      unfold FindSubdivisionCountryByName
      rw [hvals]

/-- Witness of the amended C14 on the two enumerations of the store of the
Netherlands and Belgium: the alpha lookup of `nl` agrees, and the results of
`FindCountries` on the empty template are permutations of each other. -/
theorem lookups_repeatable_witness :
    FindCountryByAlpha asciiStrings limburgQuery "nl" =
      FindCountryByAlpha asciiStrings limburgQuerySwapped "nl" ∧
    (FindCountries asciiStrings noBordering limburgQuery Country.zero).Perm
      (FindCountries asciiStrings noBordering limburgQuerySwapped Country.zero) :=
  ⟨(lookups_repeatable asciiStrings noBordering limburgQuery limburgQuerySwapped
      (by decide)).2.2.1 "nl",
   (lookups_repeatable asciiStrings noBordering limburgQuery limburgQuerySwapped
      (by decide)).2.2.2.2.2.2.1 Country.zero⟩

/-! ## Failures -/

/-- C15. Every failure of a lookup carries the caller's input unchanged as its
payload, and its kind tells a malformed key from an absent one: the alpha
lookup fails with InvalidFormat exactly on an input whose `len` is neither 2
nor 3, the currency lookup exactly on an input whose `len` is not 3, and every
other failure of the six lookups is NotFound. -/
theorem lookup_failure_carries_input (S : Strings) (q : Query) (input : String)
    (e : LookupError) :
    (FindCountryByName S q input = .error e →
      e.errType = input ∧ e.kind = ErrorKind.NotFound) ∧
    (FindCountryByNativeName S q input = .error e →
      e.errType = input ∧ e.kind = ErrorKind.NotFound) ∧
    (FindCountryByAlpha S q input = .error e →
      e.errType = input ∧
      (e.kind = ErrorKind.InvalidFormat ↔ ¬ (len input = 2 ∨ len input = 3)) ∧
      (e.kind = ErrorKind.NotFound ↔ (len input = 2 ∨ len input = 3))) ∧
    (FindCountryByCallingCode q input = .error e →
      e.errType = input ∧ e.kind = ErrorKind.NotFound) ∧
    (FindCountriesByCurrency q input = .error e →
      e.errType = input ∧
      (e.kind = ErrorKind.InvalidFormat ↔ len input ≠ 3) ∧
      (e.kind = ErrorKind.NotFound ↔ len input = 3)) ∧
    (FindSubdivisionCountryByName S q input = .error e →
      e.errType = input ∧ e.kind = ErrorKind.NotFound) := by
  have hpay : ∀ msg : String, (makeError msg input).errType = input := fun _ => rfl
  refine ⟨?_, ?_, ?_, ?_, ?_, ?_⟩
  · intro h
    simp only [FindCountryByName] at h
    split at h
    · simp only [Except.error.injEq] at h
      subst h
      exact ⟨hpay _, by simp [makeError, LookupError.kind]⟩
    · exact Except.noConfusion h
  · intro h
    simp only [FindCountryByNativeName] at h
    split at h
    · simp only [Except.error.injEq] at h
      subst h
      exact ⟨hpay _, by simp [makeError, LookupError.kind]⟩
    · exact Except.noConfusion h
  · intro h
    simp only [FindCountryByAlpha] at h
    split_ifs at h with h2 h3
    · split at h
      · simp only [Except.error.injEq] at h
        subst h
        exact ⟨hpay _, by simp [makeError, LookupError.kind, h2]⟩
      · exact Except.noConfusion h
    · split at h
      · simp only [Except.error.injEq] at h
        subst h
        exact ⟨hpay _, by simp [makeError, LookupError.kind, h3]⟩
      · exact Except.noConfusion h
    · simp only [Except.error.injEq] at h
      subst h
      exact ⟨hpay _, by simp [makeError, LookupError.kind, h2, h3]⟩
  · intro h
    simp only [FindCountryByCallingCode] at h
    split at h
    · simp only [Except.error.injEq] at h
      subst h
      exact ⟨hpay _, by simp [makeError, LookupError.kind]⟩
    · exact Except.noConfusion h
  · intro h
    simp only [FindCountriesByCurrency] at h
    split_ifs at h with h3
    · simp only [Except.error.injEq] at h
      subst h
      exact ⟨hpay _, by simp [makeError, LookupError.kind, h3]⟩
    · have h3' : len input = 3 := not_not.mp h3
      split at h
      · simp only [Except.error.injEq] at h
        subst h
        exact ⟨hpay _, by simp [makeError, LookupError.kind, h3']⟩
      · exact Except.noConfusion h
  · intro h
    unfold FindSubdivisionCountryByName at h
    have he := ((FindSubdivisionCountryByName.loop_error_iff S input e _).mp h).1
    subst he
    exact ⟨hpay _, by simp [makeError, LookupError.kind]⟩

/-- Witness of C15: the mixed-case name `AtlantiS` is not found and comes back
unchanged in the failure; the four-byte code `abcd` fails with InvalidFormat
and comes back unchanged. -/
theorem lookup_failure_carries_input_witness :
    FindCountryByName asciiStrings sampleQuery "AtlantiS" =
      .error (makeError "Could not find country with name" "AtlantiS") ∧
    (makeError "Could not find country with name" "AtlantiS").errType = "AtlantiS" ∧
    (makeError "Could not find country with name" "AtlantiS").kind = ErrorKind.NotFound ∧
    FindCountryByAlpha asciiStrings sampleQuery "abcd" =
      .error (makeError "Invalid code format" "abcd") ∧
    (makeError "Invalid code format" "abcd").errType = "abcd" ∧
    (makeError "Invalid code format" "abcd").kind = ErrorKind.InvalidFormat :=
  ⟨by decide,
   ((lookup_failure_carries_input asciiStrings sampleQuery "AtlantiS"
      (makeError "Could not find country with name" "AtlantiS")).1 (by decide)).1,
   ((lookup_failure_carries_input asciiStrings sampleQuery "AtlantiS"
      (makeError "Could not find country with name" "AtlantiS")).1 (by decide)).2,
   by decide,
   ((lookup_failure_carries_input asciiStrings sampleQuery "abcd"
      (makeError "Invalid code format" "abcd")).2.2.1 (by decide)).1,
   ((lookup_failure_carries_input asciiStrings sampleQuery "abcd"
      (makeError "Invalid code format" "abcd")).2.2.1 (by decide)).2.1.mpr (by decide)⟩

/-! ## FindCountriesByCurrency: letter case -/

/-- C16, as stated, fails: `eur` and `EUR` are both 3 bytes long and differ only
in letter case, yet on the sample engine `EUR` returns the three countries
stored under it and `eur` fails with NotFound. -/
theorem FindCountriesByCurrency_case_counterexample :
    len "eur" = 3 ∧ len "EUR" = 3 ∧
    asciiStrings.ToLower "eur" = asciiStrings.ToLower "EUR" ∧
    asciiStrings.ToUpper "eur" = asciiStrings.ToUpper "EUR" ∧
    FindCountriesByCurrency sampleQuery "EUR" = .ok [sampleFR, sampleDE, sampleES] ∧
    FindCountriesByCurrency sampleQuery "eur" =
      .error (makeError "Could not find countries with currency name" "eur") ∧
    failKind? (FindCountriesByCurrency sampleQuery "eur") = some ErrorKind.NotFound := by
  decide

/-- C16, amended. `FindCountriesByCurrency` is case-sensitive: the input is
looked up in the currency index exactly as given. Two inputs of 3 bytes give
the same outcome, the same sequence of countries or a NotFound failure for
each, exactly when the currency index holds the same entry, or no entry, for
both. -/
theorem FindCountriesByCurrency_exact_key (q : Query) (s t : String)
    (hs : len s = 3) (ht : len t = 3) :
    ((∃ cs, FindCountriesByCurrency q s = .ok cs ∧ FindCountriesByCurrency q t = .ok cs) ∨
      (failKind? (FindCountriesByCurrency q s) = some ErrorKind.NotFound ∧
        failKind? (FindCountriesByCurrency q t) = some ErrorKind.NotFound)) ↔
    q.CurrencyToAlpha2.find? s = q.CurrencyToAlpha2.find? t := by
  unfold FindCountriesByCurrency
  simp only [hs, ht, ne_eq, not_true_eq_false, if_false]
  cases q.CurrencyToAlpha2.find? s with
  | none =>
    cases q.CurrencyToAlpha2.find? t <;> simp [failKind?, LookupError.kind, makeError]
  | some cs =>
    cases q.CurrencyToAlpha2.find? t with
    | none => simp [failKind?, LookupError.kind, makeError]
    | some ct =>
      simp only [Except.ok.injEq, failKind?, Option.some.injEq, and_self, or_false,
        exists_eq_left', reduceCtorEq]
      exact eq_comm

/-- Witness of the amended C16: the sample index holds an entry for `EUR` and
none for `eur`, so the two inputs do not give the same outcome. -/
theorem FindCountriesByCurrency_exact_key_witness :
    ¬ ((∃ cs, FindCountriesByCurrency sampleQuery "eur" = .ok cs ∧
          FindCountriesByCurrency sampleQuery "EUR" = .ok cs) ∨
      (failKind? (FindCountriesByCurrency sampleQuery "eur") = some ErrorKind.NotFound ∧
        failKind? (FindCountriesByCurrency sampleQuery "EUR") =
          some ErrorKind.NotFound)) :=
  fun h => absurd
    ((FindCountriesByCurrency_exact_key sampleQuery "eur" "EUR" (by decide) (by decide)).mp h)
    (by decide)

/-! ## FindCountries: order of the result -/

/-- C17. The result of `FindCountries` is a subsequence of the records of the
primary store in the order of the scan: the countries kept appear in their
relative scan order, each store entry contributes at most one element, and
every element is a stored record. -/
theorem FindCountries_sublist_scan (S : Strings)
    (BorderingCountries : Country → List Country) (q : Query) (c : Country) :
    (FindCountries S BorderingCountries q c).Sublist
      (q.Countries.entries.map Prod.snd) ∧
    (FindCountries S BorderingCountries q c).length ≤ q.Countries.size ∧
    (∀ country ∈ FindCountries S BorderingCountries q c,
      ∃ k, (k, country) ∈ q.Countries.entries) := by
  have hsub : (FindCountries S BorderingCountries q c).Sublist q.Countries.values := by
    rw [FindCountries_eq_filter]
    exact List.filter_sublist _
  refine ⟨hsub, ?_, ?_⟩
  · have hlen := hsub.length_le
    simpa [GoMap.values, GoMap.size] using hlen
  · intro country hmem
    have hv : country ∈ q.Countries.values := hsub.subset hmem
    unfold GoMap.values at hv
    obtain ⟨e, he, hsnd⟩ := List.mem_map.mp hv
    exact ⟨e.1, by rw [← hsnd]; exact he⟩

/-- Witness of C17: on the sample engine the template with subregion
`Western Europe` keeps France and Germany, in the order of the scan, out of
the three stored records. -/
theorem FindCountries_sublist_scan_witness :
    FindCountries asciiStrings sampleBordering sampleQuery
      (geoTemplate "" "" "Western Europe") = [sampleFR, sampleDE] ∧
    (FindCountries asciiStrings sampleBordering sampleQuery
      (geoTemplate "" "" "Western Europe")).Sublist [sampleFR, sampleDE, sampleES] ∧
    (∃ k, (k, sampleDE) ∈ sampleQuery.Countries.entries) :=
  ⟨by decide,
    (FindCountries_sublist_scan asciiStrings sampleBordering sampleQuery
      (geoTemplate "" "" "Western Europe")).1,
    (FindCountries_sublist_scan asciiStrings sampleBordering sampleQuery
      (geoTemplate "" "" "Western Europe")).2.2 sampleDE (by decide)⟩

/-- C18. `FindSubdivisionCountryByName` returns the first match of the scan:
whenever some stored country's subdivision-name index contains the
lower-cased name, the scan splits into countries that do not contain it,
followed by the returned country, which does; conversely the first country of
the scan that contains it is the one returned. Two names with the same
lower-casing find the same country. -/
theorem FindSubdivisionCountryByName_first_match (S : Strings) (q : Query)
    (subdivisionName : String) :
    ((∃ country ∈ q.Countries.values,
        country.nameToSubdivision.find? (S.ToLower subdivisionName) ≠ none) →
      ∃ before C after, q.Countries.values = before ++ C :: after ∧
        (∀ country ∈ before,
          country.nameToSubdivision.find? (S.ToLower subdivisionName) = none) ∧
        C.nameToSubdivision.find? (S.ToLower subdivisionName) ≠ none ∧
        FindSubdivisionCountryByName S q subdivisionName = .ok C) ∧
    (∀ before C after, q.Countries.values = before ++ C :: after →
      (∀ country ∈ before,
        country.nameToSubdivision.find? (S.ToLower subdivisionName) = none) →
      C.nameToSubdivision.find? (S.ToLower subdivisionName) ≠ none →
      FindSubdivisionCountryByName S q subdivisionName = .ok C) ∧
    (∀ other C, S.ToLower other = S.ToLower subdivisionName →
      FindSubdivisionCountryByName S q subdivisionName = .ok C →
      FindSubdivisionCountryByName S q other = .ok C) := by
  have htrue : ∀ country : Country,
      HasSubdivision S subdivisionName country = true ↔
        country.nameToSubdivision.find? (S.ToLower subdivisionName) ≠ none := by
    intro country
    rw [Ne, ← hasSubdivision_eq_false_iff, Bool.not_eq_false]
  refine ⟨?_, ?_, ?_⟩
  · rintro ⟨country, hmem, hsome⟩
    obtain ⟨C, hC⟩ := FindSubdivisionCountryByName.loop_ok_of_exists S subdivisionName
      q.Countries.values ⟨country, hmem, (htrue country).mpr hsome⟩
    obtain ⟨before, after, hl, hbefore, hCh⟩ :=
      (FindSubdivisionCountryByName.loop_ok_iff S subdivisionName C _).mp hC
    exact ⟨before, C, after, hl,
      fun x hx => (hasSubdivision_eq_false_iff S subdivisionName x).mp (hbefore x hx),
      (htrue C).mp hCh, hC⟩
  · intro before C after hl hbefore hC
    unfold FindSubdivisionCountryByName
    rw [FindSubdivisionCountryByName.loop_ok_iff]
    exact ⟨before, after, hl,
      fun x hx => (hasSubdivision_eq_false_iff S subdivisionName x).mpr (hbefore x hx),
      (htrue C).mpr hC⟩
  · intro other C hlow hres
    unfold FindSubdivisionCountryByName at hres ⊢
    rw [FindSubdivisionCountryByName.loop_ok_iff] at hres ⊢
    have hsame : ∀ country : Country,
        HasSubdivision S other country = HasSubdivision S subdivisionName country := by
      intro country
      unfold HasSubdivision
      rw [hlow]
    obtain ⟨before, after, hl, hbefore, hCh⟩ := hres
    exact ⟨before, after, hl, fun x hx => by rw [hsame]; exact hbefore x hx,
      by rw [hsame]; exact hCh⟩

/-- Witness of C18: in the sample engine France is scanned before Germany and
has no subdivision `bayern`, so `BAYERN` finds Germany; in the engine of the
Netherlands and Belgium, `LIMBURG` finds the country scanned first. -/
theorem FindSubdivisionCountryByName_first_match_witness :
    FindSubdivisionCountryByName asciiStrings sampleQuery "BAYERN" = .ok sampleDE ∧
    FindSubdivisionCountryByName asciiStrings limburgQuery "LIMBURG" = .ok sampleNL :=
  ⟨(FindSubdivisionCountryByName_first_match asciiStrings sampleQuery "BAYERN").2.1
      [sampleFR] sampleDE [sampleES] (by decide) (by decide) (by decide),
   (FindSubdivisionCountryByName_first_match asciiStrings limburgQuery "LIMBURG").2.1
      [] sampleNL [sampleBE] (by decide) (by decide) (by decide)⟩

/-- C19. The result of `FindCountries` for two enumeration orders of the same
primary store are permutations of each other: the same countries with the
same multiplicities. -/
theorem FindCountries_perm_of_enumeration (S : Strings)
    (BorderingCountries : Country → List Country) (q1 q2 : Query) (c : Country)
    (h : q1.Countries.entries.Perm q2.Countries.entries) :
    (FindCountries S BorderingCountries q1 c).Perm
      (FindCountries S BorderingCountries q2 c) ∧
    (∀ country, (FindCountries S BorderingCountries q1 c).count country =
      (FindCountries S BorderingCountries q2 c).count country) := by
  have hperm : (FindCountries S BorderingCountries q1 c).Perm
      (FindCountries S BorderingCountries q2 c) := by
    rw [FindCountries_eq_filter, FindCountries_eq_filter]
    exact List.Perm.filter _ (GoMap.values_perm _ _ h)
  exact ⟨hperm, fun country => hperm.count_eq country⟩

/-- Witness of C19: the two enumerations of the store of the Netherlands and
Belgium give the two countries in either order. -/
theorem FindCountries_perm_of_enumeration_witness :
    limburgQuery.Countries.entries.Perm limburgQuerySwapped.Countries.entries ∧
    FindCountries asciiStrings noBordering limburgQuery Country.zero =
      [sampleNL, sampleBE] ∧
    FindCountries asciiStrings noBordering limburgQuerySwapped Country.zero =
      [sampleBE, sampleNL] ∧
    (FindCountries asciiStrings noBordering limburgQuery Country.zero).Perm
      (FindCountries asciiStrings noBordering limburgQuerySwapped Country.zero) :=
  ⟨by decide, by decide, by decide,
    (FindCountries_perm_of_enumeration asciiStrings noBordering limburgQuery
      limburgQuerySwapped Country.zero (by decide)).1⟩

/-! ## FindCountries: monotonicity in the template -/

theorem matches_of_templateExtends (S : Strings)
    (BorderingCountries : Country → List Country) (t1 t2 country : Country)
    (h : TemplateExtends BorderingCountries t1 t2)
    (hm : Matches S BorderingCountries t2 country) :
    Matches S BorderingCountries t1 country := by
  obtain ⟨hname, ha2, ha3, hcont, hreg, hsub, hpre, hbord⟩ := h
  obtain ⟨mname, ma2, ma3, mcont, mreg, msub, mpre, mbord⟩ := hm
  refine ⟨?_, ?_, ?_, ?_, ?_, ?_, ?_, ?_⟩
  · rintro ⟨hne, hfold⟩
    have heq := hname hne
    exact mname ⟨by rw [heq]; exact hne, by rw [heq]; exact hfold⟩
  · rintro ⟨hne, hdiff⟩
    have heq := ha2 hne
    exact ma2 ⟨by rw [heq]; exact hne, by rw [heq]; exact hdiff⟩
  · rintro ⟨hne, hdiff⟩
    have heq := ha3 hne
    exact ma3 ⟨by rw [heq]; exact hne, by rw [heq]; exact hdiff⟩
  · rintro ⟨hne, hfold⟩
    have heq := hcont hne
    exact mcont ⟨by rw [heq]; exact hne, by rw [heq]; exact hfold⟩
  · rintro ⟨hne, hfold⟩
    have heq := hreg hne
    exact mreg ⟨by rw [heq]; exact hne, by rw [heq]; exact hfold⟩
  · rintro ⟨hne, hfold⟩
    have heq := hsub hne
    exact msub ⟨by rw [heq]; exact hne, by rw [heq]; exact hfold⟩
  · rintro ⟨hne, hfold⟩
    have heq := hpre hne
    exact mpre ⟨by rw [heq]; exact hne, by rw [heq]; exact hfold⟩
  · intro hpos
    have hne1 : BorderingCountries t1 ≠ [] := List.length_pos.mp hpos
    obtain ⟨b, hb⟩ := List.exists_mem_of_ne_nil _ hne1
    have hne2 : BorderingCountries t2 ≠ [] := List.ne_nil_of_mem (hbord b hb)
    have hincl2 : BordersIncluded (BorderingCountries t2) (BorderingCountries country) :=
      (borderAllMatchLoop_iff _ _ hne2).mp (mbord (List.length_pos.mpr hne2))
    rw [borderAllMatchLoop_iff _ _ hne1]
    exact fun c1 hc1 => hincl2 c1 (hbord c1 hc1)

/-- C20. Monotonicity in the template: when `t2` agrees with `t1` on every
scalar field that is not empty in `t1` and the bordering countries of `t2`
include those of `t1`, every country returned by `FindCountries` for `t2` is
also returned for `t1` under the same enumeration of the store, and in the
same relative order. -/
theorem FindCountries_monotone (S : Strings)
    (BorderingCountries : Country → List Country) (q : Query) (t1 t2 : Country)
    (h : TemplateExtends BorderingCountries t1 t2) :
    (∀ country, country ∈ FindCountries S BorderingCountries q t2 →
      country ∈ FindCountries S BorderingCountries q t1) ∧
    (FindCountries S BorderingCountries q t2).Sublist
      (FindCountries S BorderingCountries q t1) := by
  have hsub : (FindCountries S BorderingCountries q t2).Sublist
      (FindCountries S BorderingCountries q t1) := by
    rw [FindCountries_eq_filter, FindCountries_eq_filter]
    apply List.monotone_filter_right
    intro country hm
    exact decide_eq_true
      (matches_of_templateExtends S BorderingCountries t1 t2 country h
        (of_decide_eq_true hm))
  exact ⟨fun country hmem => hsub.subset hmem, hsub⟩

/-- Witness of C20: adding the subregion `Southern Europe` to the template with
continent `Europe` narrows the result on the sample engine from the three
countries to Spain. -/
theorem FindCountries_monotone_witness :
    FindCountries asciiStrings sampleBordering sampleQuery
      (geoTemplate "Europe" "" "Southern Europe") = [sampleES] ∧
    FindCountries asciiStrings sampleBordering sampleQuery (geoTemplate "Europe" "" "") =
      [sampleFR, sampleDE, sampleES] ∧
    (FindCountries asciiStrings sampleBordering sampleQuery
      (geoTemplate "Europe" "" "Southern Europe")).Sublist
      (FindCountries asciiStrings sampleBordering sampleQuery
        (geoTemplate "Europe" "" "")) :=
  ⟨by decide, by decide,
    (FindCountries_monotone asciiStrings sampleBordering sampleQuery
      (geoTemplate "Europe" "" "") (geoTemplate "Europe" "" "Southern Europe")
      (by decide)).2⟩

end Gountries
